import Mathlib

/-!
# Verification of the MinhOS v3 Sierra Chart bridge and tick-exporter studies

Shallow embedding of the ACSIL studies in this repository:

* `MinhOSBridgeStudy.cpp` (the "bridge" study): `isValidData`,
  `parseTradeCommand`, `executeTrade`, `processTradeCommands`.
* `MinhOS_TickDataExporter_v3_FIXED.cpp` (the "FIXED" exporter):
  `TickBuffer`, `JSONParser`, `DetermineTradeSide`, `ExportTickData`,
  `ProcessTradeCommands`, `ExecuteTrade`.
* `MinhOS_TickDataExporter_v3_COMPLETE.cpp` (the "COMPLETE" exporter):
  `EstimateVolume`, `DetermineTradeSide`, `ExportTickData`,
  `ProcessTradeCommands`, `ExecuteTrade`.

Modelling conventions:

* C++ `std::string` / `SCString` values are `List Char` (`Str`), with the
  `std::string::find`/`substr` family modelled as executable functions on
  lists, returning `Option Nat` instead of the `npos` sentinel.
* `float`/`double` carriers of prices are modelled as exact rationals `ℚ`
  (float rounding is idealized away; all claim-relevant comparisons are
  order comparisons that this idealization preserves).
* Host trade volumes (`sc.Volume`, always integral contract counts) and the
  32-bit volume accumulators are modelled as `ℕ` without wraparound; the
  16-bit `sequenceCounter` of `TickBuffer` is modelled faithfully with its
  `% 65536` wraparound, because the buffer is designed to hold up to 20000
  ticks and the counter provably wraps during normal operation.
* File I/O is modelled at the protocol level: the single command artifact is
  an `Option Str` (present with contents / absent), and one poll cycle
  returns the artifact state after the cycle together with the ordered list
  of externally visible events (read, remove, parse, host order submission,
  response write).  Writes are assumed to succeed, matching the spec's
  scope (`IOFailure` is handled by logging only).
* Host calls (`BuyEntry`, `SellEntry`, `SubmitNewOrder`, `BuyOrder`,
  `SellOrder`) are an injected capability: the environment carries the
  integer result the host returns.
-/

namespace MinhOS

/-! ## Strings: `std::string` as `List Char` -/

abbrev Str := List Char

def strOf (s : String) : Str := s.data

/-- `haystack.find(pat, start)` of `std::string`: the smallest index `i ≥ start`
at which `pat` occurs in `haystack` (`none` for `npos`). -/
def strFindFrom (hay pat : Str) (start : Nat) : Option Nat :=
  ((List.range (hay.length + 1)).filter
    (fun i => decide (start ≤ i ∧ (hay.drop i).take pat.length = pat))).head?

/-- `haystack.find(pat)` of `std::string`. -/
def strFind (hay pat : Str) : Option Nat := strFindFrom hay pat 0

/-- `haystack.find_first_of(chars, start)` of `std::string`. -/
def findFirstOfFrom (hay : Str) (cs : Str) (start : Nat) : Option Nat :=
  ((List.range hay.length).filter
    (fun i => decide (start ≤ i) && cs.contains (hay.getD i ' '))).head?

/-- `s.substr(start, len)` of `std::string` (call sites keep `start` in
range, so the out-of-range exception case does not arise). -/
def substrFrom (s : Str) (start len : Nat) : Str := (s.drop start).take len

def strUpper (s : Str) : Str := s.map Char.toUpper

/-- `SCString::CompareNoCase(x) == 0`: case-insensitive equality. -/
def strEqNoCase (a b : Str) : Bool := decide (strUpper a = strUpper b)

/-! ## Numeric parsing: `atoi`, `std::stoi`, `atof`, `std::stof`

`std::stoi`/`std::stof` throw when no digits can be parsed; this is modelled
by returning `none` (every call site catches the exception and substitutes
0).  `atoi`/`atof` return 0 directly in that case.  Exponent/hex forms of
`atof` are not modelled; no artifact produced or consumed by these studies
uses them. -/

def isSpaceChar (ch : Char) : Bool :=
  ch = ' ' || ch = '\t' || ch = '\n' || ch = '\r' || ch = Char.ofNat 11 || ch = Char.ofNat 12

def isDigitChar (ch : Char) : Bool := decide ('0' ≤ ch) && decide (ch ≤ '9')

def digitVal (ch : Char) : Nat := ch.toNat - 48

def digitsToNat (ds : Str) : Nat := ds.foldl (fun acc ch => acc * 10 + digitVal ch) 0

/-- Leading optional whitespace and sign; returns the sign and the rest. -/
def splitSign (s : Str) : Int × Str :=
  let s1 := s.dropWhile isSpaceChar
  match s1 with
  | ch :: rest => if ch = '-' then (-1, rest) else if ch = '+' then (1, rest) else (1, s1)
  | [] => (1, s1)

/-- `std::stoi`, with the "no digits" exception as `none`. -/
def stoiOpt (s : Str) : Option Int :=
  let sg := splitSign s
  let digits := sg.2.takeWhile isDigitChar
  if digits = [] then none else some (sg.1 * (digitsToNat digits : Int))

/-- C `atoi`: 0 when nothing parses. -/
def atoiModel (s : Str) : Int := (stoiOpt s).getD 0

/-- `std::stof` on decimal forms, with the "no digits" exception as `none`. -/
def stofOpt (s : Str) : Option ℚ :=
  let sg := splitSign s
  let ip := sg.2.takeWhile isDigitChar
  let rest := sg.2.drop ip.length
  let fp : Str :=
    match rest with
    | ch :: r2 => if ch = '.' then r2.takeWhile isDigitChar else []
    | [] => []
  if ip = [] ∧ fp = [] then none
  else some ((sg.1 : ℚ) * ((digitsToNat ip : ℚ) + (digitsToNat fp : ℚ) / (10 ^ fp.length)))

/-- C `atof`: 0 when nothing parses. -/
def atofModel (s : Str) : ℚ := (stofOpt s).getD 0

/-! ## Trade side classification -/

inductive Side
  | buy
  | sell
  | unknown
deriving DecidableEq

/-- `DetermineTradeSide` of the FIXED exporter: pure midpoint rule when both
quotes are positive, tick rule against the last price otherwise. -/
def DetermineTradeSide (price bid ask lastPrice : ℚ) : Side :=
  if 0 < bid ∧ 0 < ask then
    let midpoint := (bid + ask) / 2
    if midpoint ≤ price then Side.buy else Side.sell
  else if 0 < lastPrice then
    if lastPrice < price then Side.buy
    else if price < lastPrice then Side.sell
    else Side.unknown
  else Side.unknown

/-- `DetermineTradeSide` of the COMPLETE exporter: epsilon bands around the
quotes, then an epsilon tick rule, then a nearest-quote tie-break.  The
float literal `0.0001f` is modelled as the exact rational `1/10000`. -/
def DetermineTradeSideComplete (price bid ask lastPrice : ℚ) : Side :=
  let epsilon : ℚ := 1 / 10000
  if ask - epsilon ≤ price then Side.buy
  else if price ≤ bid + epsilon then Side.sell
  else if 0 < lastPrice then
    if lastPrice + epsilon < price then Side.buy
    else if price < lastPrice - epsilon then Side.sell
    else
      let bidDistance := if bid < price then price - bid else bid - price
      let askDistance := if ask < price then price - ask else ask - price
      if bidDistance < askDistance then Side.sell
      else if askDistance < bidDistance then Side.buy
      else Side.unknown
  else Side.unknown

/-! ## Bridge study: data validation (`isValidData`) -/

def MIN_VALID_PRICE : ℚ := 1 / 100

def MAX_PRICE_CHANGE_PERCENT : ℚ := 50

/-- One bar of chart data as read by `isValidData`: close price, volume,
high, low, and — when `sc.Index > 0` — the previous bar's close. -/
structure BarData where
  price : ℚ
  volume : ℚ
  high : ℚ
  low : ℚ
  hasPrev : Bool
  prevPrice : ℚ
deriving DecidableEq

/-- `isValidData` of the bridge study. -/
def isValidData (d : BarData) : Bool :=
  if d.price ≤ 0 ∨ d.price < MIN_VALID_PRICE then false
  else if d.volume < 0 then false
  else if d.high < d.low then false
  else if d.price < d.low ∨ d.high < d.price then false
  else if d.hasPrev = true ∧ 0 < d.prevPrice ∧
      MAX_PRICE_CHANGE_PERCENT < |(d.price - d.prevPrice) / d.prevPrice * 100| then false
  else true

/-! ## Claim C5: trade side classifier -/

/-- Claim C5 (amended): for the FIXED exporter's `DetermineTradeSide`, under
the data-model invariant `bid ≤ ask`, the classifier behaves exactly as the
spec's case list describes: with both quotes positive, price at/above the ask
is Buy, price at/below the bid (and below the ask) is Sell, and strictly
inside the quotes the midpoint rule decides with ties going to Buy; with
quotes unavailable but a positive last price, the tick rule applies with
equality mapping to Unknown; otherwise Unknown. -/
theorem C5_side_classifier (price bid ask lastPrice : ℚ) (hba : bid ≤ ask) :
    (0 < bid → 0 < ask →
      ((ask ≤ price → DetermineTradeSide price bid ask lastPrice = Side.buy) ∧
       (price ≤ bid → price < ask → DetermineTradeSide price bid ask lastPrice = Side.sell) ∧
       (bid < price → price < ask →
         (((bid + ask) / 2 ≤ price → DetermineTradeSide price bid ask lastPrice = Side.buy) ∧
          (price < (bid + ask) / 2 → DetermineTradeSide price bid ask lastPrice = Side.sell))))) ∧
    (¬(0 < bid ∧ 0 < ask) → 0 < lastPrice →
      ((lastPrice < price → DetermineTradeSide price bid ask lastPrice = Side.buy) ∧
       (price < lastPrice → DetermineTradeSide price bid ask lastPrice = Side.sell) ∧
       (price = lastPrice → DetermineTradeSide price bid ask lastPrice = Side.unknown))) ∧
    (¬(0 < bid ∧ 0 < ask) → lastPrice ≤ 0 →
      DetermineTradeSide price bid ask lastPrice = Side.unknown) := by
  refine ⟨fun hb ha => ⟨?_, ?_, fun h1 h2 => ⟨?_, ?_⟩⟩, fun hq hl => ⟨?_, ?_, ?_⟩, fun hq hl => ?_⟩
  · intro h
    rw [DetermineTradeSide, if_pos ⟨hb, ha⟩, if_pos (by linarith)]
  · intro h1 h2
    rw [DetermineTradeSide, if_pos ⟨hb, ha⟩, if_neg (by push_neg; linarith)]
  · intro h
    rw [DetermineTradeSide, if_pos ⟨hb, ha⟩, if_pos h]
  · intro h
    rw [DetermineTradeSide, if_pos ⟨hb, ha⟩, if_neg (by push_neg; linarith)]
  · intro h
    rw [DetermineTradeSide, if_neg hq, if_pos hl, if_pos h]
  · intro h
    rw [DetermineTradeSide, if_neg hq, if_pos hl, if_neg (by linarith), if_pos h]
  · intro h
    rw [DetermineTradeSide, if_neg hq, if_pos hl, if_neg (by linarith), if_neg (by linarith)]
  · rw [DetermineTradeSide, if_neg hq, if_neg (by linarith)]

/-- Witness for C5 at a concrete boundary input (price exactly at the ask). -/
theorem C5_witness :
    (100 : ℚ) ≤ 101 ∧
    ((0 < (100 : ℚ) → 0 < (101 : ℚ) →
      (((101 : ℚ) ≤ 102 → DetermineTradeSide 102 100 101 0 = Side.buy) ∧
       ((102 : ℚ) ≤ 100 → (102 : ℚ) < 101 → DetermineTradeSide 102 100 101 0 = Side.sell) ∧
       ((100 : ℚ) < 102 → (102 : ℚ) < 101 →
         ((((100 : ℚ) + 101) / 2 ≤ 102 → DetermineTradeSide 102 100 101 0 = Side.buy) ∧
          ((102 : ℚ) < ((100 : ℚ) + 101) / 2 → DetermineTradeSide 102 100 101 0 = Side.sell))))) ∧
     (¬(0 < (100 : ℚ) ∧ 0 < (101 : ℚ)) → 0 < (0 : ℚ) →
      (((0 : ℚ) < 102 → DetermineTradeSide 102 100 101 0 = Side.buy) ∧
       ((102 : ℚ) < 0 → DetermineTradeSide 102 100 101 0 = Side.sell) ∧
       ((102 : ℚ) = 0 → DetermineTradeSide 102 100 101 0 = Side.unknown))) ∧
     (¬(0 < (100 : ℚ) ∧ 0 < (101 : ℚ)) → (0 : ℚ) ≤ 0 →
      DetermineTradeSide 102 100 101 0 = Side.unknown)) :=
  ⟨by decide, C5_side_classifier 102 100 101 0 (by decide)⟩

/-- Counterexample to C5 as stated: the claim demands Buy for every input with
`bid > 0`, `ask > 0` and `price ≥ ask`, but on a crossed quote
(`bid = 20 > ask = 10`) the FIXED classifier's midpoint rule returns Sell for
`price = 10 = ask`. -/
theorem C5_counterexample :
    (0 : ℚ) < 20 ∧ (0 : ℚ) < 10 ∧ (10 : ℚ) ≤ 10 ∧
    DetermineTradeSide 10 20 10 0 = Side.sell := by
  refine ⟨by decide, by decide, by decide, ?_⟩
  rw [DetermineTradeSide, if_pos (by constructor <;> decide)]
  norm_num

/-! ## Claim C9: snapshot validation -/

/-- Claim C9 (amended): `isValidData` rejects a bar exactly when
`price < 0.01` (the `MIN_VALID_PRICE` check, which subsumes the spec's
`price ≤ 0`), or `volume < 0`, or `high < low`, or the price lies outside
`[low, high]`, or there is a previous bar with positive close whose
bar-over-bar change exceeds 50%. -/
theorem C9_validation (d : BarData) :
    isValidData d = false ↔
      (d.price < 1 / 100 ∨ d.volume < 0 ∨ d.high < d.low ∨
       d.price < d.low ∨ d.high < d.price ∨
       (d.hasPrev = true ∧ 0 < d.prevPrice ∧
         50 < |(d.price - d.prevPrice) / d.prevPrice * 100|)) := by
  rw [isValidData]
  unfold MIN_VALID_PRICE MAX_PRICE_CHANGE_PERCENT
  split_ifs with h1 h2 h3 h4 h5
  · simp only [true_iff]
    rcases h1 with h | h
    · exact Or.inl (by linarith)
    · exact Or.inl h
  · simp only [true_iff]
    exact Or.inr (Or.inl h2)
  · simp only [true_iff]
    exact Or.inr (Or.inr (Or.inl h3))
  · simp only [true_iff]
    rcases h4 with h | h
    · exact Or.inr (Or.inr (Or.inr (Or.inl h)))
    · exact Or.inr (Or.inr (Or.inr (Or.inr (Or.inl h))))
  · simp only [true_iff]
    exact Or.inr (Or.inr (Or.inr (Or.inr (Or.inr h5))))
  · simp only [Bool.true_eq_false, false_iff]
    push_neg at h1 h4 ⊢
    refine ⟨h1.2, ?_, ?_, h4.1, h4.2, ?_⟩
    · simpa using h2
    · simpa using h3
    · intro hp hpp
      have := h5
      push_neg at this
      simpa using this hp hpp

/-- Witness for C9: a bar with a 60% bar-over-bar move is rejected. -/
theorem C9_witness : isValidData ⟨160, 10, 165, 155, true, 100⟩ = false := by
  refine (C9_validation ⟨160, 10, 165, 155, true, 100⟩).mpr ?_
  refine Or.inr (Or.inr (Or.inr (Or.inr (Or.inr ⟨rfl, by decide, ?_⟩))))
  norm_num

/-- Counterexample to C9 as stated: the bar with price `0.005` inside
`[0.004, 0.006]`, nonnegative volume and no previous bar satisfies none of
the claim's four failure conditions, yet `isValidData` rejects it (the code
additionally requires `price ≥ MIN_VALID_PRICE = 0.01`). -/
theorem C9_counterexample :
    isValidData ⟨1 / 200, 0, 3 / 500, 1 / 250, false, 0⟩ = false ∧
    ¬((1 / 200 : ℚ) ≤ 0 ∨ (3 / 500 : ℚ) < 1 / 250 ∨ (1 / 200 : ℚ) < 1 / 250 ∨
      (3 / 500 : ℚ) < 1 / 200 ∨ (false = true ∧ (0 : ℚ) < 0)) := by
  constructor
  · rw [isValidData]
    unfold MIN_VALID_PRICE
    rw [if_pos]
    norm_num
  · push_neg
    refine ⟨by norm_num, by norm_num, by norm_num, by norm_num, ?_⟩
    intro h
    exact absurd h (by simp)

/-! ## Tick records and the circular buffer (`TickTrade`, `TickBuffer`) -/

/-- `TickTrade` of the v3 exporters (field for field; `open` is renamed
`openPrice` because `open` is a Lean keyword). -/
structure TickTrade where
  timestamp_us : ℕ
  price : ℚ
  size : ℕ
  side : Side
  bid : ℚ
  ask : ℚ
  bid_size : ℕ
  ask_size : ℕ
  sequence : ℕ
  openPrice : ℚ
  high : ℚ
  low : ℚ
  total_volume : ℕ
  vwap : ℚ
  trade_count : ℕ
deriving DecidableEq

/-- The slot value of a never-written buffer slot: the constructor zeroes
`timestamp_us` (the only field `GetRecentTicks` inspects); the remaining
fields are modelled as zero as well. -/
def emptyTick : TickTrade :=
  ⟨0, 0, 0, Side.unknown, 0, 0, 0, 0, 0, 0, 0, 0, 0, 0, 0⟩

/-- The modulus of the 16-bit `sequenceCounter`. -/
def UINT16_MOD : ℕ := 65536

/-- State of the `TickBuffer` class: fixed-length slot vector, write cursor,
capacity, and the wrapping 16-bit sequence counter. -/
structure TickBufferState where
  buffer : List TickTrade
  writeIndex : ℕ
  maxSize : ℕ
  sequenceCounter : ℕ
deriving DecidableEq

/-- The `TickBuffer(size)` constructor. -/
def TickBuffer.init (size : ℕ) : TickBufferState :=
  { buffer := List.replicate size emptyTick
    writeIndex := 0
    maxSize := size
    sequenceCounter := 0 }

/-- `TickBuffer::AddTick`: store the tick at the write cursor, stamp it with
the current sequence counter, advance both (counter as `uint16_t`). -/
def AddTick (st : TickBufferState) (tick : TickTrade) : TickBufferState :=
  { buffer := st.buffer.set st.writeIndex { tick with sequence := st.sequenceCounter }
    writeIndex := (st.writeIndex + 1) % st.maxSize
    maxSize := st.maxSize
    sequenceCounter := (st.sequenceCounter + 1) % UINT16_MOD }

/-- `TickBuffer::GetRecentTicks(count)`: walk the last
`min(count, maxSize)` slots ending at the write cursor, in stored order,
returning only slots that carry a nonzero timestamp.  The C++ index
expression `(writeIndex - actualCount + i + maxSize) % maxSize` is computed
in `size_t`; since `maxSize ≥ actualCount` its value equals the `ℕ` value of
`writeIndex + maxSize - actualCount + i` (the unsigned wraparound of the
intermediate difference cancels). -/
def GetRecentTicks (count : ℕ) (st : TickBufferState) : List TickTrade :=
  let actualCount := if count < st.maxSize then count else st.maxSize
  (List.range actualCount).filterMap (fun i =>
    let index := (st.writeIndex + st.maxSize - actualCount + i) % st.maxSize
    let slot := st.buffer.getD index emptyTick
    if 0 < slot.timestamp_us then some slot else none)

/-- A sequence of `AddTick` calls starting from a fresh buffer of capacity
`c`. -/
def pushAll (ts : List TickTrade) (c : ℕ) : TickBufferState :=
  ts.foldl AddTick (TickBuffer.init c)

/-! ## Windowed VWAP -/

/-- The VWAP block of `ExportTickData` (identical in both v3 exporters):
default to the current price, and over a nonempty window divide the
price-volume sum by the total volume only when the latter is positive. -/
def windowedVWAP (recentTicks : List TickTrade) (currentPrice : ℚ) : ℚ :=
  if recentTicks = [] then currentPrice
  else
    let weightedSum := recentTicks.foldl (fun acc t => acc + t.price * (t.size : ℚ)) 0
    let totalVol := recentTicks.foldl (fun acc t => acc + t.size) (0 : ℕ)
    if 0 < totalVol then weightedSum / (totalVol : ℚ) else currentPrice

/-! ## Claim C6: windowed VWAP -/

theorem foldl_add_eq_sum {M : Type} [AddMonoid M] (f : TickTrade → M) :
    ∀ (l : List TickTrade) (a : M), l.foldl (fun acc t => acc + f t) a = a + (l.map f).sum := by
  intro l
  induction l with
  | nil => intro a; simp
  | cons x xs ih => intro a; simp [ih, add_assoc]

/-- Evaluation of the VWAP block in terms of list sums. -/
theorem windowedVWAP_eq (w : List TickTrade) (cur : ℚ) :
    windowedVWAP w cur =
      if w = [] then cur
      else if 0 < (w.map TickTrade.size).sum then
        (w.map (fun t => t.price * (t.size : ℚ))).sum / ((w.map TickTrade.size).sum : ℚ)
      else cur := by
  rw [windowedVWAP]
  split
  · rfl
  · rw [foldl_add_eq_sum (fun t => t.price * (t.size : ℚ)) w 0,
      foldl_add_eq_sum TickTrade.size w 0]
    simp

/-- Claim C6: for every window size `n`, the VWAP computed over
`GetRecentTicks n` is the current price when the window is empty or its
total volume is zero, and otherwise it is exactly the volume-weighted mean
of the window's prices (the division is only performed with a positive
denominator). -/
theorem C6_windowed_vwap (n : ℕ) (st : TickBufferState) (currentPrice : ℚ) :
    (GetRecentTicks n st = [] →
       windowedVWAP (GetRecentTicks n st) currentPrice = currentPrice) ∧
    (((GetRecentTicks n st).map TickTrade.size).sum = 0 →
       windowedVWAP (GetRecentTicks n st) currentPrice = currentPrice) ∧
    (0 < ((GetRecentTicks n st).map TickTrade.size).sum →
       windowedVWAP (GetRecentTicks n st) currentPrice =
         ((GetRecentTicks n st).map (fun t => t.price * (t.size : ℚ))).sum /
           (((GetRecentTicks n st).map TickTrade.size).sum : ℚ)) := by
  refine ⟨fun h => ?_, fun h => ?_, fun h => ?_⟩ <;> rw [windowedVWAP_eq]
  · rw [if_pos h]
  · split
    · rfl
    · rw [if_neg (by omega)]
  · split_ifs with h1
    · rw [h1] at h; simp at h
    · rfl

/-- Witness for C6: the empty window of a fresh one-slot buffer yields the
current price. -/
theorem C6_witness :
    GetRecentTicks 1 (TickBuffer.init 1) = [] ∧
    windowedVWAP (GetRecentTicks 1 (TickBuffer.init 1)) 42 = 42 :=
  ⟨by decide, (C6_windowed_vwap 1 (TickBuffer.init 1) 42).1 (by decide)⟩

/-! ## Claim C7: `GetRecentTicks` bounds, provenance and ordering

The buffer contents after an arbitrary push history are characterized in
closed form (`pushAll_spec`), from which the claim's three conclusions
follow.  The 16-bit sequence counter makes the ordering conclusion true only
while the total number of pushes stays within `2^16`. -/

theorem getD_set_eq {α : Type} (l : List α) (m j : ℕ) (a d : α) :
    (l.set m a).getD j d = if m = j ∧ j < l.length then a else l.getD j d := by
  induction l generalizing m j with
  | nil => simp
  | cons x xs ih =>
    cases m with
    | zero =>
      cases j with
      | zero => simp
      | succ jj => simp
    | succ mm =>
      cases j with
      | zero => simp
      | succ jj =>
        simp only [List.set_cons_succ, List.getD_cons_succ, List.length_cons, ih]
        by_cases h : mm = jj ∧ jj < xs.length
        · rw [if_pos h, if_pos (by omega)]
        · rw [if_neg h, if_neg (by omega)]

theorem getD_concat_self {α : Type} (l : List α) (a d : α) :
    (l ++ [a]).getD l.length d = a := by
  induction l with
  | nil => rfl
  | cons x xs ih => simp [ih]

theorem getD_replicate {α : Type} (n i : ℕ) (a d : α) (h : i < n) :
    (List.replicate n a).getD i d = a := by
  induction n generalizing i with
  | zero => omega
  | succ m ih =>
    cases i with
    | zero => rfl
    | succ j => simpa [List.replicate_succ] using ih j (by omega)

/-- The push index of the latest write to slot `j` after `k` pushes into a
buffer of capacity `c` (meaningful when some `i < k` has `i % c = j`). -/
def lastWriteIdx (k c j : ℕ) : ℕ := k - 1 - ((k - 1 - j) % c)

/-- Closed form of a slot's contents after the pushes `ts`. -/
def writtenSlot (ts : List TickTrade) (c j : ℕ) : TickTrade :=
  if j < ts.length then
    { ts.getD (lastWriteIdx ts.length c j) emptyTick with
        sequence := lastWriteIdx ts.length c j % UINT16_MOD }
  else emptyTick

theorem lastWriteIdx_eq (k c v : ℕ) (hv : v < k) (hvc : k ≤ v + c) :
    lastWriteIdx k c (v % c) = v := by
  have hj : v % c ≤ v := Nat.mod_le v c
  have hdm := Nat.div_add_mod v c
  have h1 : k - 1 - v % c = (k - 1 - v) + c * (v / c) := by omega
  rw [lastWriteIdx, h1, Nat.add_mul_mod_self_left, Nat.mod_eq_of_lt (by omega)]
  omega

/-- State characterization of `pushAll`: capacity and slot-vector length are
preserved, cursor and counter advance modulo capacity resp. `2^16`, and each
slot `j` holds the latest push whose index is congruent to `j` modulo the
capacity (or the initial empty slot if there is none). -/
theorem pushAll_spec (c : ℕ) (hc : 0 < c) (ts : List TickTrade) :
    (pushAll ts c).maxSize = c ∧
    (pushAll ts c).buffer.length = c ∧
    (pushAll ts c).writeIndex = ts.length % c ∧
    (pushAll ts c).sequenceCounter = ts.length % UINT16_MOD ∧
    ∀ j, j < c → (pushAll ts c).buffer.getD j emptyTick = writtenSlot ts c j := by
  induction ts using List.reverseRecOn with
  | nil =>
    refine ⟨rfl, by simp [pushAll, TickBuffer.init], by simp [pushAll, TickBuffer.init],
      by simp [pushAll, TickBuffer.init], ?_⟩
    intro j hj
    simp [pushAll, TickBuffer.init, writtenSlot, getD_replicate c j _ _ hj]
  | append_singleton ts t ih =>
    obtain ⟨hms, hlen, hwi, hsc, hslots⟩ := ih
    have hstep : pushAll (ts ++ [t]) c = AddTick (pushAll ts c) t := by
      simp [pushAll, List.foldl_append]
    have hlen2 : (ts ++ [t]).length = ts.length + 1 := by simp
    refine ⟨by rw [hstep]; simpa [AddTick] using hms, ?_, ?_, ?_, ?_⟩
    · rw [hstep]; simpa [AddTick, List.length_set] using hlen
    · rw [hstep]; simp only [AddTick, hwi, hms, hlen2]
      exact Nat.mod_add_mod ts.length c 1
    · rw [hstep]; simp only [AddTick, hsc, hlen2]
      exact Nat.mod_add_mod ts.length UINT16_MOD 1
    · intro j hj
      rw [hstep]
      simp only [AddTick, hwi, hsc]
      rw [getD_set_eq, hlen]
      by_cases h : ts.length % c = j ∧ j < c
      · rw [if_pos h]
        have hjk : j = ts.length % c := h.1.symm
        have hmodlt : ts.length % c ≤ ts.length := Nat.mod_le _ _
        rw [writtenSlot, if_pos (by omega)]
        have hdm := Nat.div_add_mod ts.length c
        have hz : (ts ++ [t]).length - 1 - j = ts.length - ts.length % c := by omega
        have hmul : ts.length - ts.length % c = c * (ts.length / c) := by omega
        have hzero : ((ts ++ [t]).length - 1 - j) % c = 0 := by
          rw [hz, hmul, Nat.mul_mod_right]
        rw [lastWriteIdx, hzero, Nat.sub_zero, hlen2, Nat.add_sub_cancel,
          getD_concat_self]
      · rw [if_neg h]
        rw [hslots j hj]
        by_cases hjk : j < ts.length
        · -- slot below the new write cursor: untouched, same last write
          have hne : ts.length % c ≠ j := fun he => h ⟨he, hj⟩
          set k := ts.length with hk
          have hd : (k - 1 - j) % c < c := Nat.mod_lt _ hc
          have hdle : (k - 1 - j) % c ≤ k - 1 - j := Nat.mod_le _ _
          have hdm2 := Nat.div_add_mod (k - 1 - j) c
          have hne2 : (k - 1 - j) % c + 1 ≠ c := by
            intro hcontr
            have hq : c * ((k - 1 - j) / c + 1) = c * ((k - 1 - j) / c) + c :=
              Nat.mul_succ c _
            have hkeq : k = j + c * ((k - 1 - j) / c + 1) := by omega
            have : k % c = j % c := by rw [hkeq, Nat.add_mul_mod_self_left]
            exact hne (by rw [this, Nat.mod_eq_of_lt hj])
          have hkj2 : k - j = c * ((k - 1 - j) / c) + ((k - 1 - j) % c + 1) := by omega
          have hmod2 : (k - j) % c = (k - 1 - j) % c + 1 := by
            rw [hkj2, Nat.mul_add_mod, Nat.mod_eq_of_lt (by omega)]
          have hlw : lastWriteIdx (ts ++ [t]).length c j = lastWriteIdx k c j := by
            rw [lastWriteIdx, lastWriteIdx, hlen2]
            rw [Nat.add_sub_cancel]
            rw [hmod2]
            omega
          rw [writtenSlot, writtenSlot, if_pos (by omega), if_pos (by omega), hlw]
          have hlt : lastWriteIdx k c j < ts.length := by
            rw [lastWriteIdx]; omega
          rw [List.getD_append _ _ _ _ hlt]
        · -- slot at or above the push count: still empty on both sides
          have hgt : ts.length < j := by
            rcases Nat.eq_or_lt_of_le (Nat.le_of_not_lt hjk) with he | hlt
            · exfalso
              exact h ⟨by rw [← he, Nat.mod_eq_of_lt (by omega)], hj⟩
            · exact hlt
          rw [writtenSlot, writtenSlot, if_neg (by omega), if_neg (by omega)]

/-- Closed form of `GetRecentTicks` after the push history `ts`: the window
holds the last `min n c` pushes (in push order, each stamped with its push
index modulo `2^16`), with positions that precede the start of the history
or carry a zero timestamp filtered out. -/
theorem getRecentTicks_pushAll (c n : ℕ) (hc : 0 < c) (ts : List TickTrade) :
    GetRecentTicks n (pushAll ts c) =
      (List.range (min n c)).filterMap (fun m =>
        if ts.length + m < min n c then none
        else
          if 0 < (ts.getD (ts.length + m - min n c) emptyTick).timestamp_us then
            some { ts.getD (ts.length + m - min n c) emptyTick with
                     sequence := (ts.length + m - min n c) % UINT16_MOD }
          else none) := by
  obtain ⟨hms, hlen, hwi, hsc, hslots⟩ := pushAll_spec c hc ts
  simp only [GetRecentTicks, hms, hwi]
  have hac : (if n < c then n else c) = min n c := by
    rcases Nat.lt_or_ge n c with h | h
    · rw [if_pos h, Nat.min_eq_left (le_of_lt h)]
    · rw [if_neg (by omega), Nat.min_eq_right h]
  rw [hac]
  set a := min n c with ha
  have haclt : a ≤ c := Nat.min_le_right n c
  apply List.filterMap_congr
  intro m hm
  rw [List.mem_range] at hm
  have hidxlt : (ts.length % c + c - a + m) % c < c := Nat.mod_lt _ hc
  rw [hslots _ hidxlt]
  by_cases hcase : ts.length + m < a
  · -- fewer pushes than the window start: the inspected slot is empty
    have hklt : ts.length < c := by omega
    have hkm : ts.length % c = ts.length := Nat.mod_eq_of_lt hklt
    have hidx : (ts.length % c + c - a + m) % c = ts.length + c - a + m := by
      rw [hkm]; exact Nat.mod_eq_of_lt (by omega)
    have hws : writtenSlot ts c ((ts.length % c + c - a + m) % c) = emptyTick := by
      rw [hidx, writtenSlot, if_neg (by omega)]
    rw [hws, if_pos hcase]
    simp [emptyTick]
  · push_neg at hcase
    have hvlt : ts.length + m - a < ts.length := by omega
    have hvc : ts.length ≤ ts.length + m - a + c := by omega
    have hidx : (ts.length % c + c - a + m) % c = (ts.length + m - a) % c := by
      have h1 : ts.length % c + c - a + m = ts.length % c + (c - a + m) := by omega
      rw [h1, Nat.mod_add_mod]
      have h2 : ts.length + (c - a + m) = ts.length + m - a + c := by omega
      rw [h2, Nat.add_mod_right]
    have hws : writtenSlot ts c ((ts.length % c + c - a + m) % c) =
        { ts.getD (ts.length + m - a) emptyTick with
            sequence := (ts.length + m - a) % UINT16_MOD } := by
      rw [hidx, writtenSlot,
        if_pos (by have := Nat.mod_le (ts.length + m - a) c; omega),
        lastWriteIdx_eq ts.length c _ hvlt hvc]
    rw [hws, if_neg (show ¬(ts.length + m < a) by omega)]

/-- Claim C7 (amended): after any push history into a buffer of positive
capacity `c`, `GetRecentTicks n` returns at most `min n c` entries, every
returned entry is one of the pushed ticks carrying its assigned sequence
stamp, and — as long as the total number of pushes does not exceed `2^16`,
the range of the 16-bit sequence counter — the returned entries are in
non-decreasing sequence order. -/
theorem C7_recent_ticks (c n : ℕ) (ts : List TickTrade) (hc : 0 < c) :
    (GetRecentTicks n (pushAll ts c)).length ≤ min n c ∧
    (∀ e ∈ GetRecentTicks n (pushAll ts c), ∃ i, i < ts.length ∧
        e = { ts.getD i emptyTick with sequence := i % UINT16_MOD }) ∧
    (ts.length ≤ UINT16_MOD →
      (GetRecentTicks n (pushAll ts c)).Pairwise
        (fun t1 t2 => t1.sequence ≤ t2.sequence)) := by
  rw [getRecentTicks_pushAll c n hc ts]
  have hu : UINT16_MOD = 65536 := rfl
  set a := min n c with ha
  refine ⟨?_, ?_, ?_⟩
  · calc (List.filterMap _ _).length ≤ (List.range a).length :=
        List.length_filterMap_le _ _
      _ = a := List.length_range _
  · intro e he
    rw [List.mem_filterMap] at he
    obtain ⟨m, hm, hfm⟩ := he
    rw [List.mem_range] at hm
    by_cases hcase : ts.length + m < a
    · rw [if_pos hcase] at hfm
      exact absurd hfm (by simp)
    · rw [if_neg hcase] at hfm
      rcases Decidable.em
          (0 < (ts.getD (ts.length + m - a) emptyTick).timestamp_us) with ht | ht
      · rw [if_pos ht] at hfm
        exact ⟨ts.length + m - a, by omega, (Option.some_inj.mp hfm).symm⟩
      · rw [if_neg ht] at hfm
        exact absurd hfm (by simp)
  · intro hk
    rw [List.pairwise_filterMap]
    refine List.Pairwise.imp_of_mem ?_ (List.pairwise_lt_range a)
    intro m1 m2 hm1 hm2 hlt e1 he1 e2 he2
    rw [List.mem_range] at hm1 hm2
    by_cases h1 : ts.length + m1 < a
    · rw [if_pos h1] at he1
      simp at he1
    · by_cases h2 : ts.length + m2 < a
      · omega
      · rw [if_neg h1] at he1
        rw [if_neg h2] at he2
        split_ifs at he1 with ht1
        · split_ifs at he2 with ht2
          · rw [Option.mem_def] at he1 he2
            have he1e := Option.some_inj.mp he1.symm
            have he2e := Option.some_inj.mp he2.symm
            rw [he1e, he2e]
            show (ts.length + m1 - a) % UINT16_MOD ≤ (ts.length + m2 - a) % UINT16_MOD
            rw [Nat.mod_eq_of_lt (by omega), Nat.mod_eq_of_lt (by omega)]
            omega
          · simp at he2
        · simp at he1

/-- A concrete tick with a nonzero timestamp, used in witnesses and
counterexamples. -/
def sampleTick : TickTrade :=
  ⟨1, 100, 1, Side.unknown, 99, 101, 1, 1, 0, 100, 101, 99, 1, 100, 1⟩

/-- Witness for C7 at capacity 2 with a single push. -/
theorem C7_witness :
    0 < 2 ∧
    ((GetRecentTicks 1 (pushAll [sampleTick] 2)).length ≤ min 1 2 ∧
     (∀ e ∈ GetRecentTicks 1 (pushAll [sampleTick] 2), ∃ i, i < [sampleTick].length ∧
        e = { [sampleTick].getD i emptyTick with sequence := i % UINT16_MOD }) ∧
     ([sampleTick].length ≤ UINT16_MOD →
       (GetRecentTicks 1 (pushAll [sampleTick] 2)).Pairwise
         (fun t1 t2 => t1.sequence ≤ t2.sequence))) :=
  ⟨by decide, C7_recent_ticks 2 1 [sampleTick] (by decide)⟩

/-- Counterexample to C7 as stated: after 65537 pushes into a capacity-2
buffer the 16-bit sequence counter has wrapped, and `GetRecentTicks 2`
returns the entries with sequence stamps `[65535, 0]` — not in
non-decreasing sequence order. -/
theorem C7_counterexample :
    ¬ (GetRecentTicks 2 (pushAll (List.replicate 65537 sampleTick) 2)).Pairwise
        (fun t1 t2 => t1.sequence ≤ t2.sequence) := by
  rw [getRecentTicks_pushAll 2 2 (by decide) (List.replicate 65537 sampleTick)]
  have hlen : (List.replicate 65537 sampleTick).length = 65537 := List.length_replicate _ _
  have hg1 : (List.replicate 65537 sampleTick).getD 65535 emptyTick = sampleTick :=
    getD_replicate _ _ _ _ (by omega)
  have hg2 : (List.replicate 65537 sampleTick).getD 65536 emptyTick = sampleTick :=
    getD_replicate _ _ _ _ (by omega)
  have hrange : List.range (min 2 2) = [0, 1] := by decide
  rw [hlen, hrange]
  rw [List.filterMap_cons, List.filterMap_cons, List.filterMap_nil]
  simp only []
  rw [show (2 : ℕ) ⊓ 2 = 2 from rfl]
  rw [if_neg (show ¬(65537 + 0 < 2) by omega), if_neg (show ¬(65537 + 1 < 2) by omega),
    show 65537 + 0 - 2 = 65535 by norm_num, show 65537 + 1 - 2 = 65536 by norm_num,
    hg1, hg2, if_pos (show 0 < sampleTick.timestamp_us by decide)]
  show ¬ List.Pairwise (fun t1 t2 => t1.sequence ≤ t2.sequence)
    [{ sampleTick with sequence := 65535 % UINT16_MOD },
     { sampleTick with sequence := 65536 % UINT16_MOD }]
  intro hcon
  have h1 := (List.pairwise_cons.mp hcon).1 _ (List.mem_singleton_self _)
  revert h1
  decide

/-! ## The tick normalizers (`ExportTickData` of the two v3 exporters)

One invocation of `ExportTickData` reads a snapshot of the chart arrays and
the global state (`g_LastPrice`, `g_CumulativeVolume`, `g_TickBuffer`,
`g_TotalTrades`, `g_LastUpdateTime`), optionally emits one tick, and
updates the globals.  Host volumes are integral contract counts, so the
`float` volume carrier and its `(uint32_t)` cast are modelled as `ℕ`; the
`0.4f`/`0.6f` bid/ask size splits are modelled as exact rational factors
under a floor. -/

/-- The inputs one `ExportTickData` invocation reads from the host. -/
structure SnapIn where
  price : ℚ
  volume : ℕ
  high : ℚ
  low : ℚ
  openPrice : ℚ
  bid : ℚ
  ask : ℚ
  tickSize : ℚ
  nowUs : ℕ
deriving DecidableEq

/-- The process-wide mutable state of an exporter. -/
structure NormState where
  lastPrice : ℚ
  cumulativeVolume : ℕ
  buffer : TickBufferState
  totalTrades : ℕ
  lastUpdateTime : ℕ
deriving DecidableEq

/-- `EstimateVolume` of the COMPLETE exporter: 1 on the first tick, 0 when
the price did not move, otherwise `(uint32_t)((|Δprice| / tickSize) * 10)`
clamped to `[1, 1000]`. -/
def EstimateVolume (tickSize currentPrice lastPrice : ℚ) : ℕ :=
  if lastPrice = 0 then 1
  else
    let priceChange := |currentPrice - lastPrice|
    if priceChange = 0 then 0
    else
      let estimatedVol := (⌊priceChange / tickSize * 10⌋).toNat
      let clamped := if estimatedVol < 1 then 1 else estimatedVol
      if 1000 < clamped then 1000 else clamped

/-- The bid/ask resolution block shared by both exporters: host quotes when
both positive (with a 40%/60% size split of the tick volume), otherwise a
synthetic spread of 10% of the bar range floored at one tick size, centered
on the price (with the volume split evenly). -/
def resolveBidAsk (env : SnapIn) (av : ℕ) : ℚ × ℚ × ℕ × ℕ :=
  if 0 < env.bid ∧ 0 < env.ask then
    (env.bid, env.ask, (⌊(av : ℚ) * (2 / 5)⌋).toNat, (⌊(av : ℚ) * (3 / 5)⌋).toNat)
  else
    let spread0 := (env.high - env.low) * (1 / 10)
    let spread := if spread0 < env.tickSize then env.tickSize else spread0
    (env.price - spread, env.price + spread, av / 2, av / 2)

/-- `ExportTickData` of the COMPLETE exporter.  Volume falls back to
`EstimateVolume`; a tick is emitted when the price changed, the tick volume
is positive, or this is the first observation. -/
def exportTickDataComplete (env : SnapIn) (s : NormState) : NormState × Option TickTrade :=
  let av : ℕ :=
    if 0 < env.volume then env.volume
    else EstimateVolume env.tickSize env.price s.lastPrice
  let cumVol : ℕ :=
    if 0 < env.volume then s.cumulativeVolume + av
    else if 0 < av then s.cumulativeVolume + av else s.cumulativeVolume
  let ba := resolveBidAsk env av
  if env.price ≠ s.lastPrice ∨ 0 < av ∨ s.lastPrice = 0 then
    let tick : TickTrade :=
      { timestamp_us := env.nowUs
        price := env.price
        size := av
        side := DetermineTradeSideComplete env.price ba.1 ba.2.1 s.lastPrice
        bid := ba.1
        ask := ba.2.1
        bid_size := ba.2.2.1
        ask_size := ba.2.2.2
        sequence := 0
        openPrice := env.openPrice
        high := env.high
        low := env.low
        total_volume := cumVol
        vwap := windowedVWAP (GetRecentTicks 200 s.buffer) env.price
        trade_count := s.totalTrades + 1 }
    ({ lastPrice := env.price
       cumulativeVolume := cumVol
       buffer := AddTick s.buffer tick
       totalTrades := s.totalTrades + 1
       lastUpdateTime := env.nowUs }, some tick)
  else
    ({ s with cumulativeVolume := cumVol }, none)

/-- `ExportTickData` of the FIXED exporter.  No volume estimation: the
invocation returns immediately when the host volume is zero, after which a
tick is emitted only when `ActualVolume > 0` and the price changed or this
is the first observation.  Note that `g_CumulativeVolume` is incremented
before the new-trade check. -/
def exportTickDataFixed (env : SnapIn) (s : NormState) : NormState × Option TickTrade :=
  if 0 < env.volume then
    let av : ℕ := env.volume
    let cumVol : ℕ := s.cumulativeVolume + av
    let ba := resolveBidAsk env av
    if 0 < av ∧ (env.price ≠ s.lastPrice ∨ s.lastPrice = 0) then
      let tick : TickTrade :=
        { timestamp_us := env.nowUs
          price := env.price
          size := av
          side := DetermineTradeSide env.price ba.1 ba.2.1 s.lastPrice
          bid := ba.1
          ask := ba.2.1
          bid_size := ba.2.2.1
          ask_size := ba.2.2.2
          sequence := 0
          openPrice := env.openPrice
          high := env.high
          low := env.low
          total_volume := cumVol
          vwap := windowedVWAP (GetRecentTicks 200 s.buffer) env.price
          trade_count := s.totalTrades + 1 }
      ({ lastPrice := env.price
         cumulativeVolume := cumVol
         buffer := AddTick s.buffer tick
         totalTrades := s.totalTrades + 1
         lastUpdateTime := env.nowUs }, some tick)
    else
      ({ s with cumulativeVolume := cumVol }, none)
  else (s, none)

/-- The volume estimate is positive exactly on the first observation or a
price change. -/
theorem estimateVolume_pos (tickSize currentPrice lastPrice : ℚ) :
    0 < EstimateVolume tickSize currentPrice lastPrice ↔
      (lastPrice = 0 ∨ currentPrice ≠ lastPrice) := by
  simp only [EstimateVolume]
  by_cases h1 : lastPrice = 0
  · rw [if_pos h1]
    simp [h1]
  · rw [if_neg h1]
    by_cases h2 : |currentPrice - lastPrice| = 0
    · rw [if_pos h2]
      rw [abs_eq_zero, sub_eq_zero] at h2
      simp [h1, h2]
    · rw [if_neg h2]
      rw [abs_eq_zero, sub_eq_zero] at h2
      constructor
      · intro _
        exact Or.inr h2
      · intro _
        split_ifs <;> omega

/-! ## Claims C3 and C4: emission condition and skip frame -/

/-- On a skip the COMPLETE exporter leaves the state unchanged. -/
theorem exportComplete_skip_state (env : SnapIn) (s : NormState) :
    (exportTickDataComplete env s).2 = none → (exportTickDataComplete env s).1 = s := by
  simp only [exportTickDataComplete]
  by_cases hC : env.price ≠ s.lastPrice ∨
      0 < (if 0 < env.volume then env.volume
           else EstimateVolume env.tickSize env.price s.lastPrice) ∨
      s.lastPrice = 0
  · rw [if_pos hC]
    intro hcon
    simp at hcon
  · rw [if_neg hC]
    intro _
    push_neg at hC
    obtain ⟨hpe, hav, hl0⟩ := hC
    have hv : ¬ 0 < env.volume := by
      intro hv
      rw [if_pos hv] at hav
      omega
    simp only [if_neg hv] at hav ⊢
    rw [if_neg (show ¬ 0 < EstimateVolume env.tickSize env.price s.lastPrice by omega)]

/-- Claim C3 (amended): the COMPLETE exporter emits a tick exactly when the
price changed, the host volume is positive, or this is the first
observation — and on a skip its whole state (sequence counter included) is
unchanged; the FIXED exporter instead emits exactly when the host volume is
positive and (the price changed or this is the first observation), leaving
the buffer (hence the sequence counter) unchanged on a skip. -/
theorem C3_emission (env : SnapIn) (s : NormState) :
    ((exportTickDataComplete env s).2.isSome = true ↔
       (env.price ≠ s.lastPrice ∨ 0 < env.volume ∨ s.lastPrice = 0)) ∧
    ((exportTickDataComplete env s).2 = none → (exportTickDataComplete env s).1 = s) ∧
    ((exportTickDataFixed env s).2.isSome = true ↔
       (0 < env.volume ∧ (env.price ≠ s.lastPrice ∨ s.lastPrice = 0))) ∧
    ((exportTickDataFixed env s).2 = none →
       (exportTickDataFixed env s).1.buffer = s.buffer) := by
  refine ⟨?_, ?_, ?_, ?_⟩
  · simp only [exportTickDataComplete]
    by_cases hC : env.price ≠ s.lastPrice ∨
        0 < (if 0 < env.volume then env.volume
             else EstimateVolume env.tickSize env.price s.lastPrice) ∨
        s.lastPrice = 0
    · rw [if_pos hC]
      simp only [Option.isSome_some, true_iff]
      rcases hC with h | h | h
      · exact Or.inl h
      · by_cases hv : 0 < env.volume
        · exact Or.inr (Or.inl hv)
        · rw [if_neg hv] at h
          rcases (estimateVolume_pos _ _ _).mp h with h0 | hne
          · exact Or.inr (Or.inr h0)
          · exact Or.inl hne
      · exact Or.inr (Or.inr h)
    · rw [if_neg hC]
      push_neg at hC
      obtain ⟨hpe, hav, hl0⟩ := hC
      simp only [Option.isSome_none, Bool.false_eq_true, false_iff]
      intro hcon
      rcases hcon with h | h | h
      · exact h hpe
      · rw [if_pos h] at hav
        omega
      · exact hl0 h
  · exact exportComplete_skip_state env s
  · simp only [exportTickDataFixed]
    by_cases hv : 0 < env.volume
    · rw [if_pos hv]
      by_cases hD : 0 < env.volume ∧ (env.price ≠ s.lastPrice ∨ s.lastPrice = 0)
      · rw [if_pos hD]
        simpa using hD
      · rw [if_neg hD]
        simp only [Option.isSome_none, Bool.false_eq_true, false_iff]
        exact hD
    · rw [if_neg hv]
      simp only [Option.isSome_none, Bool.false_eq_true, false_iff]
      intro hcon
      exact hv hcon.1
  · simp only [exportTickDataFixed]
    by_cases hv : 0 < env.volume
    · rw [if_pos hv]
      by_cases hD : 0 < env.volume ∧ (env.price ≠ s.lastPrice ∨ s.lastPrice = 0)
      · rw [if_pos hD]
        intro hcon
        simp at hcon
      · rw [if_neg hD]
        intro _
        rfl
    · rw [if_neg hv]
      intro _
      rfl

/-- Claim C4 (amended): on a skip the COMPLETE exporter leaves the whole
state untouched; the FIXED exporter leaves last price, buffer, timestamps
and trade counter untouched but has already added the snapshot's volume to
the cumulative volume (so a skipped snapshot with positive volume does
mutate `InstrumentState`). -/
theorem C4_skip_frame (env : SnapIn) (s : NormState) :
    ((exportTickDataComplete env s).2 = none → (exportTickDataComplete env s).1 = s) ∧
    ((exportTickDataFixed env s).2 = none →
       (exportTickDataFixed env s).1.lastPrice = s.lastPrice ∧
       (exportTickDataFixed env s).1.buffer = s.buffer ∧
       (exportTickDataFixed env s).1.totalTrades = s.totalTrades ∧
       (exportTickDataFixed env s).1.lastUpdateTime = s.lastUpdateTime ∧
       (exportTickDataFixed env s).1.cumulativeVolume = s.cumulativeVolume + env.volume) := by
  constructor
  · exact exportComplete_skip_state env s
  · simp only [exportTickDataFixed]
    by_cases hv : 0 < env.volume
    · rw [if_pos hv]
      by_cases hD : 0 < env.volume ∧ (env.price ≠ s.lastPrice ∨ s.lastPrice = 0)
      · rw [if_pos hD]
        intro hcon
        simp at hcon
      · rw [if_neg hD]
        intro _
        exact ⟨rfl, rfl, rfl, rfl, rfl⟩
    · rw [if_neg hv]
      intro _
      have h0 : env.volume = 0 := by omega
      simp [h0]

/-- Concrete snapshot and state used in the C3/C4 witnesses. -/
def envW : SnapIn := ⟨101, 5, 102, 99, 100, 100, 101, 1, 1000⟩

def stW : NormState := ⟨100, 50, TickBuffer.init 4, 3, 999⟩

/-- Witness for C3: a snapshot with positive volume and a price change is
emitted by both exporters. -/
theorem C3_witness :
    (exportTickDataComplete envW stW).2.isSome = true ∧
    (exportTickDataFixed envW stW).2.isSome = true :=
  ⟨((C3_emission envW stW).1).mpr (Or.inr (Or.inl (by decide))),
   ((C3_emission envW stW).2.2.1).mpr ⟨by decide, Or.inl (by decide)⟩⟩

/-- A snapshot with zero volume but a changed price. -/
def envX : SnapIn := ⟨101, 0, 102, 99, 100, 100, 101, 1, 1000⟩

/-- Counterexample to C3 as stated: the FIXED exporter returns without
emitting on a price-changing snapshot whose host volume is zero, though the
claim requires a tick to be emitted whenever the price changed. -/
theorem C3_counterexample :
    envX.price ≠ stW.lastPrice ∧ (exportTickDataFixed envX stW).2 = none :=
  ⟨by decide, rfl⟩

/-- A snapshot with positive volume and an unchanged price. -/
def envY : SnapIn := ⟨100, 5, 102, 99, 100, 100, 101, 1, 1000⟩

/-- Witness for C4: on the zero-volume skip of `envX`, the FIXED exporter
leaves the state unchanged (and adds the zero volume). -/
theorem C4_witness :
    (exportTickDataFixed envX stW).2 = none ∧
    (exportTickDataFixed envX stW).1.lastPrice = stW.lastPrice ∧
    (exportTickDataFixed envX stW).1.buffer = stW.buffer ∧
    (exportTickDataFixed envX stW).1.totalTrades = stW.totalTrades ∧
    (exportTickDataFixed envX stW).1.lastUpdateTime = stW.lastUpdateTime ∧
    (exportTickDataFixed envX stW).1.cumulativeVolume =
      stW.cumulativeVolume + envX.volume :=
  ⟨rfl, (C4_skip_frame envX stW).2 rfl⟩

/-- Counterexample to C4 as stated: the FIXED exporter skips the snapshot
`envY` (volume 5, price unchanged) without emitting a tick, yet its
cumulative volume grows from 50 to 55 — the instrument state is mutated on
a skip. -/
theorem C4_counterexample :
    (exportTickDataFixed envY stW).2 = none ∧
    (exportTickDataFixed envY stW).1.cumulativeVolume = 55 ∧
    stW.cumulativeVolume = 50 :=
  ⟨rfl, rfl, rfl⟩

/-! ## The `JSONParser` helper class of the v3 exporters -/

/-- The search key `"key":"` used by `JSONParser::ExtractString`. -/
def mkStringKey (key : Str) : Str := strOf "\"" ++ key ++ strOf "\":\""

/-- The search key `"key":` used by `JSONParser::ExtractInt`/`ExtractFloat`. -/
def mkValueKey (key : Str) : Str := strOf "\"" ++ key ++ strOf "\":"

namespace JSONParser

/-- `JSONParser::ExtractString`: empty string when the key (with an
immediately following quote) is missing or the closing quote is missing. -/
def ExtractString (json key : Str) : Str :=
  match strFind json (mkStringKey key) with
  | none => []
  | some pos =>
    let start := pos + (mkStringKey key).length
    match strFindFrom json (strOf "\"") start with
    | none => []
    | some e => substrFrom json start (e - start)

/-- The raw token between `"key":` and the next `,` or `}` (`none` when the
key or the delimiter is missing), shared by `ExtractInt` and
`ExtractFloat`. -/
def ExtractToken (json key : Str) : Option Str :=
  match strFind json (mkValueKey key) with
  | none => none
  | some pos =>
    let start := pos + (mkValueKey key).length
    match findFirstOfFrom json [',', Char.ofNat 125] start with
    | none => none
    | some e => some (substrFrom json start (e - start))

/-- `JSONParser::ExtractInt`: 0 when the key or delimiter is missing or
`std::stoi` throws. -/
def ExtractInt (json key : Str) : Int :=
  match ExtractToken json key with
  | none => 0
  | some tok => (stoiOpt tok).getD 0

/-- `JSONParser::ExtractFloat`: 0 when the key or delimiter is missing or
`std::stof` throws. -/
def ExtractFloat (json key : Str) : ℚ :=
  match ExtractToken json key with
  | none => 0
  | some tok => (stofOpt tok).getD 0

end JSONParser

/-! ## Bridge study: `parseTradeCommand` -/

/-- `TradeCommand` of the bridge study. -/
structure TradeCommandB where
  command_id : Str
  action : Str
  symbol : Str
  quantity : Int
  price : ℚ
  order_type : Str
deriving DecidableEq

/-- One quoted-field extraction of `parseTradeCommand`: find the key
pattern, then the next two quotes, and take what lies between them; on any
failure the field keeps its reset value `dflt`.  (When the first quote
search fails, the C++ still runs the second search from `npos + 1 = 0`, but
the `start != npos` guard discards the result, so the net behaviour is the
one modelled here.) -/
def bridgeExtractQuoted (jsonStr : Str) (keyPat : Str) (dflt : Str) : Str :=
  match strFind jsonStr keyPat with
  | none => dflt
  | some pos =>
    match strFindFrom jsonStr (strOf "\"") (pos + keyPat.length) with
    | none => dflt
    | some b =>
      match strFindFrom jsonStr (strOf "\"") (b + 1) with
      | none => dflt
      | some e => substrFrom jsonStr (b + 1) (e - b - 1)

/-- The `while (pos < len && (s[pos]==' '||s[pos]==':')) pos++` loop of the
numeric extractions. -/
def skipSpacesColons (s : Str) (pos : Nat) : Nat :=
  pos + ((s.drop pos).takeWhile (fun ch => ch = ' ' || ch = ':')).length

/-- One numeric-field extraction of `parseTradeCommand`: find the key, skip
blanks/colons, and apply `atoi` to the remainder; 0 when the key is
missing. -/
def bridgeExtractAtoi (jsonStr : Str) (keyPat : Str) : Int :=
  match strFind jsonStr keyPat with
  | none => 0
  | some pos => atoiModel (jsonStr.drop (skipSpacesColons jsonStr (pos + keyPat.length)))

/-- The `atof` analogue for the optional price field. -/
def bridgeExtractAtof (jsonStr : Str) (keyPat : Str) : ℚ :=
  match strFind jsonStr keyPat with
  | none => 0
  | some pos => atofModel (jsonStr.drop (skipSpacesColons jsonStr (pos + keyPat.length)))

/-- `parseTradeCommand` of the bridge study: reset the command, extract the
six fields by substring search, and report success iff `command_id` and
`action` are non-empty and `quantity > 0`.  The C++ hard-codes each key
offset; every offset equals the key pattern's length, which is what the
field extractors use. -/
def parseTradeCommand (jsonStr : Str) : TradeCommandB × Bool :=
  let command_id := bridgeExtractQuoted jsonStr (strOf "\"command_id\":") []
  let action := bridgeExtractQuoted jsonStr (strOf "\"action\":") []
  let symbol := bridgeExtractQuoted jsonStr (strOf "\"symbol\":") []
  let quantity := bridgeExtractAtoi jsonStr (strOf "\"quantity\":")
  let price := bridgeExtractAtof jsonStr (strOf "\"price\":")
  let order_type := bridgeExtractQuoted jsonStr (strOf "\"order_type\":") (strOf "MARKET")
  (⟨command_id, action, symbol, quantity, price, order_type⟩,
   decide (command_id ≠ [] ∧ action ≠ [] ∧ 0 < quantity))

/-! ## Command channel models

A poll cycle transforms the (single-slot) command artifact and produces an
ordered trace of externally visible events.  Order submission to the host
is the injected capability: the environment carries the integer the host
returns from `BuyEntry`/`SellEntry`/`SubmitNewOrder`/`BuyOrder`/`SellOrder`. -/

inductive OrderTypeE
  | market
  | limit
  | stop
deriving DecidableEq

/-- An order as handed to the host trading API. -/
structure SubmittedOrder where
  buySell : Str
  orderType : OrderTypeE
  price1 : ℚ
  quantity : Int
deriving DecidableEq

/-- Externally visible events of one poll cycle, in program order. -/
inductive ChanEvent
  | readContent (content : Str)
  | removeArtifact
  | parseAttempt
  | submitOrder (o : SubmittedOrder)
  | writeResponse (id : Str) (status : Str)
deriving DecidableEq

/-- The `(id, status)` pairs of the responses written during a cycle. -/
def responsesOf (evs : List ChanEvent) : List (Str × Str) :=
  evs.filterMap (fun e =>
    match e with
    | ChanEvent.writeResponse i st => some (i, st)
    | _ => none)

/-- The orders handed to the host during a cycle. -/
def submitsOf (evs : List ChanEvent) : List SubmittedOrder :=
  evs.filterMap (fun e =>
    match e with
    | ChanEvent.submitOrder o => some o
    | _ => none)

def isRead : ChanEvent → Bool
  | ChanEvent.readContent _ => true
  | _ => false

/-- Result of one poll cycle: the artifact state afterwards, the event
trace, and the C++ return value (where the function returns `bool`). -/
structure PollResult where
  fileAfter : Option Str
  events : List ChanEvent
  returnValue : Bool
deriving DecidableEq

/-! ### Bridge study: `executeTrade` and `processTradeCommands` -/

def MAX_POSITION_SIZE : Int := 10

/-- The study/chart environment `executeTrade` reads. -/
structure BridgeEnv where
  allowEntryWithWorkingOrders : Bool
  sendOrdersToTradeService : Bool
  chartSymbol : Str
  bid : ℚ
  ask : ℚ
  hostOrderResult : Int
deriving DecidableEq

/-- Result of `executeTrade`: the returned order id, the final value of the
`fillPrice` out-parameter (initialized to 0 by the caller), and the order
handed to the host, if any. -/
structure ExecResult where
  retId : Int
  fillPrice : ℚ
  submitted : Option SubmittedOrder
deriving DecidableEq

/-- `executeTrade` of the bridge study.  After the validation gates, the
order is constructed (`LIMIT` with a positive price sets a limit type,
`Price1` and a nominal fill price) — but the order type is then
unconditionally overwritten with `SCT_ORDERTYPE_MARKET` ("Force market
order for reliability"), and on the BUY/SELL paths the fill price is
overwritten with the current ask/bid after the host call. -/
def executeTrade (env : BridgeEnv) (cmd : TradeCommandB) : ExecResult :=
  if env.allowEntryWithWorkingOrders = false then ⟨0, 0, none⟩
  else if env.sendOrdersToTradeService = false then ⟨0, 0, none⟩
  else if cmd.symbol ≠ [] ∧ strEqNoCase env.chartSymbol cmd.symbol = false then ⟨0, 0, none⟩
  else if cmd.quantity ≤ 0 then ⟨0, 0, none⟩
  else if MAX_POSITION_SIZE < cmd.quantity then ⟨0, 0, none⟩
  else if env.ask ≤ 0 ∨ env.bid ≤ 0 then ⟨0, 0, none⟩
  else
    let limitReq : Prop := cmd.order_type = strOf "LIMIT" ∧ 0 < cmd.price
    let price1 : ℚ := if limitReq then cmd.price else 0
    let fill0 : ℚ :=
      if limitReq then cmd.price
      else if cmd.action = strOf "BUY" then env.ask else env.bid
    if cmd.action = strOf "BUY" then
      ⟨env.hostOrderResult, env.ask,
       some ⟨strOf "BUY", OrderTypeE.market, price1, cmd.quantity⟩⟩
    else if cmd.action = strOf "SELL" then
      ⟨env.hostOrderResult, env.bid,
       some ⟨strOf "SELL", OrderTypeE.market, price1, cmd.quantity⟩⟩
    else ⟨0, fill0, none⟩

/-- The submission event of a host order call, if one was made. -/
def submitEvents : Option SubmittedOrder → List ChanEvent
  | some o => [ChanEvent.submitOrder o]
  | none => []

/-- `processTradeCommands` of the bridge study: open (fail → return false),
read; an empty content does nothing; otherwise remove the artifact first,
then parse, then either execute and answer under the command's id
(`FILLED` on a positive host result, `REJECTED` otherwise) or answer
`unknown`/`REJECTED` without executing. -/
def processTradeCommands (env : BridgeEnv) (file : Option Str) : PollResult :=
  match file with
  | none => ⟨none, [], false⟩
  | some content =>
    if content = [] then ⟨some content, [ChanEvent.readContent content], true⟩
    else
      let pr := parseTradeCommand content
      if pr.2 then
        let ex := executeTrade env pr.1
        let submitEvs : List ChanEvent := submitEvents ex.submitted
        let resp : ChanEvent :=
          if 0 < ex.retId then ChanEvent.writeResponse pr.1.command_id (strOf "FILLED")
          else ChanEvent.writeResponse pr.1.command_id (strOf "REJECTED")
        ⟨none, [ChanEvent.readContent content, ChanEvent.removeArtifact,
                ChanEvent.parseAttempt] ++ submitEvs ++ [resp], true⟩
      else
        ⟨none, [ChanEvent.readContent content, ChanEvent.removeArtifact,
                ChanEvent.parseAttempt,
                ChanEvent.writeResponse (strOf "unknown") (strOf "REJECTED")], true⟩

/-! ### FIXED exporter: `ExecuteTrade` and `ProcessTradeCommands` -/

/-- Host/time environment of the exporter studies. -/
structure FixedEnv where
  hostOrderResult : Int
  nowUs : ℕ
deriving DecidableEq

/-- The synthetic `MINH_<timestamp>` order id of the FIXED exporter. -/
def minhOrderId (nowUs : ℕ) : Str := strOf "MINH_" ++ Nat.toDigits 10 nowUs

/-- `ExecuteTrade` of the FIXED exporter: rejects bad quantity, bad limit
price or bad side with one `REJECTED` response; otherwise submits (`LIMIT`
keeps its type and `Price1`) and writes one `SUBMITTED`/`FAILED` response.
Every path writes exactly one response, keyed by the synthetic id. -/
def executeTradeFixed (env : FixedEnv) (side : Str) (quantity : Int) (price : ℚ)
    (orderType : Str) : List ChanEvent :=
  let orderId := minhOrderId env.nowUs
  if quantity ≤ 0 then
    [ChanEvent.writeResponse orderId (strOf "REJECTED")]
  else if price ≤ 0 ∧ strEqNoCase orderType (strOf "MARKET") = false then
    [ChanEvent.writeResponse orderId (strOf "REJECTED")]
  else
    let ot : OrderTypeE :=
      if strEqNoCase orderType (strOf "LIMIT") then OrderTypeE.limit else OrderTypeE.market
    let price1 : ℚ := if strEqNoCase orderType (strOf "LIMIT") then price else 0
    if strEqNoCase side (strOf "BUY") = true ∨ strEqNoCase side (strOf "SELL") = true then
      [ChanEvent.submitOrder ⟨side, ot, price1, quantity⟩,
       ChanEvent.writeResponse orderId
         (if 0 < env.hostOrderResult then strOf "SUBMITTED" else strOf "FAILED")]
    else
      [ChanEvent.writeResponse orderId (strOf "REJECTED")]

/-- The parse-validation condition of the FIXED exporter's
`ProcessTradeCommands`. -/
def fixedCmdValid (content : Str) : Bool :=
  decide (JSONParser.ExtractString content (strOf "symbol") ≠ [] ∧
    JSONParser.ExtractString content (strOf "side") ≠ [] ∧
    0 < JSONParser.ExtractInt content (strOf "quantity"))

/-- `ProcessTradeCommands` of the FIXED exporter: read; empty content does
nothing; a command passing the validity check is executed and only then is
the artifact deleted; a command failing it is neither answered nor deleted
(the artifact survives to the next poll). -/
def processTradeCommandsFixed (env : FixedEnv) (file : Option Str) : PollResult :=
  match file with
  | none => ⟨none, [], true⟩
  | some content =>
    if content = [] then ⟨some content, [ChanEvent.readContent content], true⟩
    else
      if fixedCmdValid content then
        ⟨none,
         [ChanEvent.readContent content, ChanEvent.parseAttempt] ++
           executeTradeFixed env
             (JSONParser.ExtractString content (strOf "side"))
             (JSONParser.ExtractInt content (strOf "quantity"))
             (JSONParser.ExtractFloat content (strOf "price"))
             (JSONParser.ExtractString content (strOf "order_type")) ++
           [ChanEvent.removeArtifact], true⟩
      else
        ⟨some content, [ChanEvent.readContent content, ChanEvent.parseAttempt], true⟩

/-! ### COMPLETE exporter: `ExecuteTrade` and `ProcessTradeCommands` -/

/-- `ExecuteTrade` of the COMPLETE exporter: always sets `Price1` to the
requested price, maps the type string case-sensitively (unknown and empty
strings default to market resp. limit), submits on BUY/SELL and only logs
the result — it writes no response itself. -/
def executeTradeComplete (side : Str) (quantity : Int) (price : ℚ)
    (orderType : Str) : List ChanEvent :=
  let ot : OrderTypeE :=
    if orderType = strOf "MARKET" ∨ orderType = [] then OrderTypeE.market
    else if orderType = strOf "LIMIT" then OrderTypeE.limit
    else if orderType = strOf "STOP" then OrderTypeE.stop
    else OrderTypeE.limit
  if side = strOf "BUY" then [ChanEvent.submitOrder ⟨side, ot, price, quantity⟩]
  else if side = strOf "SELL" then [ChanEvent.submitOrder ⟨side, ot, price, quantity⟩]
  else []

/-- The parse-validation condition of the COMPLETE exporter's
`ProcessTradeCommands`. -/
def completeCmdValid (content : Str) : Bool :=
  decide (JSONParser.ExtractString content (strOf "order_id") ≠ [] ∧
    JSONParser.ExtractString content (strOf "symbol") ≠ [] ∧
    JSONParser.ExtractString content (strOf "side") ≠ [] ∧
    0 < JSONParser.ExtractInt content (strOf "quantity"))

/-- `ProcessTradeCommands` of the COMPLETE exporter: read (also empty
content); a valid command is executed, answered `PROCESSING` under the
command's own `order_id`, and the artifact deleted; an invalid one gets an
`INVALID`/`REJECTED` response and the artifact is left in place. -/
def processTradeCommandsComplete (_env : FixedEnv) (file : Option Str) : PollResult :=
  match file with
  | none => ⟨none, [], true⟩
  | some content =>
    if completeCmdValid content then
      ⟨none,
       [ChanEvent.readContent content, ChanEvent.parseAttempt] ++
         executeTradeComplete
           (JSONParser.ExtractString content (strOf "side"))
           (JSONParser.ExtractInt content (strOf "quantity"))
           (JSONParser.ExtractFloat content (strOf "price"))
           (JSONParser.ExtractString content (strOf "type")) ++
         [ChanEvent.writeResponse (JSONParser.ExtractString content (strOf "order_id"))
            (strOf "PROCESSING"),
          ChanEvent.removeArtifact], true⟩
    else
      ⟨some content,
       [ChanEvent.readContent content, ChanEvent.parseAttempt,
        ChanEvent.writeResponse (strOf "INVALID") (strOf "REJECTED")], true⟩

/-! ## Claims C1 and C2: consumption discipline and response discipline -/

theorem responsesOf_append (a b : List ChanEvent) :
    responsesOf (a ++ b) = responsesOf a ++ responsesOf b := by
  simp [responsesOf, List.filterMap_append]

theorem submitsOf_append (a b : List ChanEvent) :
    submitsOf (a ++ b) = submitsOf a ++ submitsOf b := by
  simp [submitsOf, List.filterMap_append]

/-- Every path of the FIXED exporter's `ExecuteTrade` writes exactly one
response. -/
theorem executeTradeFixed_responses (env : FixedEnv) (side : Str) (q : Int)
    (price : ℚ) (ot : Str) :
    (responsesOf (executeTradeFixed env side q price ot)).length = 1 := by
  simp only [executeTradeFixed]
  split_ifs <;> simp [responsesOf]

/-- The COMPLETE exporter's `ExecuteTrade` writes no response itself. -/
theorem executeTradeComplete_responses (side : Str) (q : Int) (price : ℚ) (ot : Str) :
    responsesOf (executeTradeComplete side q price ot) = [] := by
  simp only [executeTradeComplete]
  split_ifs <;> simp [responsesOf]

/-- Claim C1 (amended): the bridge study removes the artifact immediately
after a successful non-empty read and before parsing or execution, and the
next poll then reads nothing; in the v3 exporters, an artifact whose
command fails parse validation is not removed at all (it is read again on
the next cycle), and even a valid command's artifact is removed only after
the command has been executed. -/
theorem C1_at_most_once :
    (∀ (env : BridgeEnv) (content : Str), content ≠ [] →
      (processTradeCommands env (some content)).fileAfter = none ∧
      (∃ rest, (processTradeCommands env (some content)).events =
          ChanEvent.readContent content :: ChanEvent.removeArtifact :: rest ∧
        ∀ e ∈ rest, isRead e = false) ∧
      processTradeCommands env none = ⟨none, [], false⟩) ∧
    (∀ (env : FixedEnv) (content : Str), content ≠ [] → fixedCmdValid content = false →
      (processTradeCommandsFixed env (some content)).fileAfter = some content) ∧
    (∀ (env : FixedEnv) (content : Str), content ≠ [] → fixedCmdValid content = true →
      (processTradeCommandsFixed env (some content)).fileAfter = none ∧
      ∃ mid, (processTradeCommandsFixed env (some content)).events =
        [ChanEvent.readContent content, ChanEvent.parseAttempt] ++ mid ++
          [ChanEvent.removeArtifact]) ∧
    (∀ (env : FixedEnv) (content : Str), completeCmdValid content = false →
      (processTradeCommandsComplete env (some content)).fileAfter = some content) := by
  refine ⟨?_, ?_, ?_, ?_⟩
  · intro env content h
    refine ⟨?_, ?_, rfl⟩
    · simp only [processTradeCommands]
      rw [if_neg h]
      by_cases hp : (parseTradeCommand content).2 = true
      · rw [if_pos hp]
      · rw [if_neg hp]
    · simp only [processTradeCommands]
      rw [if_neg h]
      by_cases hp : (parseTradeCommand content).2 = true
      · rw [if_pos hp]
        by_cases hr : 0 < (executeTrade env (parseTradeCommand content).1).retId <;>
          [rw [if_pos hr]; rw [if_neg hr]] <;>
          rcases hsub : (executeTrade env (parseTradeCommand content).1).submitted with _ | o <;>
            simp only [submitEvents] <;>
            exact ⟨_, rfl, by simp [isRead]⟩
      · rw [if_neg hp]
        exact ⟨_, rfl, by simp [isRead]⟩
  · intro env content h hv
    simp only [processTradeCommandsFixed]
    rw [if_neg h, if_neg (by simp [hv])]
  · intro env content h hv
    simp only [processTradeCommandsFixed]
    rw [if_neg h, if_pos hv]
    exact ⟨rfl, _, rfl⟩
  · intro env content hv
    simp only [processTradeCommandsComplete]
    rw [if_neg (by simp [hv])]

/-- A well-formed bridge command artifact content. -/
def validCmdJson : Str :=
  strOf "\"command_id\":\"c1\",\"action\":\"BUY\",\"symbol\":\"NQ\",\"quantity\":2,\"order_type\":\"MARKET\""

/-- A concrete bridge environment with trading enabled and quotes 100/101. -/
def envB : BridgeEnv := ⟨true, true, strOf "NQ", 100, 101, 5⟩

/-- Witness for C1: the bridge cycle on a concrete valid command. -/
theorem C1_witness :
    validCmdJson ≠ [] ∧
    ((processTradeCommands envB (some validCmdJson)).fileAfter = none ∧
     (∃ rest, (processTradeCommands envB (some validCmdJson)).events =
         ChanEvent.readContent validCmdJson :: ChanEvent.removeArtifact :: rest ∧
       ∀ e ∈ rest, isRead e = false) ∧
     processTradeCommands envB none = ⟨none, [], false⟩) :=
  ⟨by decide, C1_at_most_once.1 envB validCmdJson (by decide)⟩

/-- Counterexample to C1 as stated: the FIXED exporter reads the malformed
artifact `"x"`, does not remove it, and the next poll cycle reads the very
same content again — the claimed at-most-once consumption fails. -/
theorem C1_counterexample :
    (processTradeCommandsFixed ⟨1, 0⟩ (some (strOf "x"))).fileAfter = some (strOf "x") ∧
    ChanEvent.readContent (strOf "x") ∈
      (processTradeCommandsFixed ⟨1, 0⟩ (some (strOf "x"))).events ∧
    ChanEvent.readContent (strOf "x") ∈
      (processTradeCommandsFixed ⟨1, 0⟩
        (processTradeCommandsFixed ⟨1, 0⟩ (some (strOf "x"))).fileAfter).events := by
  decide

/-- A non-empty artifact that fails the bridge parse check is answered
`unknown`/`REJECTED` with no host order submission. -/
theorem bridge_parse_failure_response (env : BridgeEnv) (json : Str)
    (h : json ≠ []) (hp : (parseTradeCommand json).2 = false) :
    responsesOf (processTradeCommands env (some json)).events =
      [(strOf "unknown", strOf "REJECTED")] ∧
    submitsOf (processTradeCommands env (some json)).events = [] := by
  simp only [processTradeCommands]
  rw [if_neg h, if_neg (by simp [hp])]
  exact ⟨by simp [responsesOf], by simp [submitsOf]⟩

/-- Claim C2 (amended): the bridge writes exactly one response per
non-empty read — keyed by the parsed `command_id` on parse success and by
the synthetic id `unknown` (status `REJECTED`, no host order) on parse
failure.  The COMPLETE exporter likewise answers every read exactly once
(`order_id`/`PROCESSING` when valid; `INVALID`/`REJECTED` with no host
order when invalid).  The FIXED exporter answers a valid command exactly
once but writes no response at all for a command that fails parse
validation. -/
theorem C2_response_discipline :
    (∀ (env : BridgeEnv) (content : Str), content ≠ [] →
      (responsesOf (processTradeCommands env (some content)).events).length = 1 ∧
      ((parseTradeCommand content).2 = true →
        ∃ st, responsesOf (processTradeCommands env (some content)).events =
          [((parseTradeCommand content).1.command_id, st)]) ∧
      ((parseTradeCommand content).2 = false →
        responsesOf (processTradeCommands env (some content)).events =
          [(strOf "unknown", strOf "REJECTED")] ∧
        submitsOf (processTradeCommands env (some content)).events = [])) ∧
    (∀ (env : FixedEnv) (content : Str),
      (completeCmdValid content = true →
        responsesOf (processTradeCommandsComplete env (some content)).events =
          [(JSONParser.ExtractString content (strOf "order_id"), strOf "PROCESSING")]) ∧
      (completeCmdValid content = false →
        responsesOf (processTradeCommandsComplete env (some content)).events =
          [(strOf "INVALID", strOf "REJECTED")] ∧
        submitsOf (processTradeCommandsComplete env (some content)).events = [])) ∧
    (∀ (env : FixedEnv) (content : Str), content ≠ [] →
      (fixedCmdValid content = false →
        responsesOf (processTradeCommandsFixed env (some content)).events = []) ∧
      (fixedCmdValid content = true →
        (responsesOf (processTradeCommandsFixed env (some content)).events).length = 1)) := by
  refine ⟨?_, ?_, ?_⟩
  · intro env content h
    refine ⟨?_, ?_, ?_⟩
    · simp only [processTradeCommands]
      rw [if_neg h]
      by_cases hp : (parseTradeCommand content).2 = true
      · rw [if_pos hp]
        by_cases hr : 0 < (executeTrade env (parseTradeCommand content).1).retId <;>
          [rw [if_pos hr]; rw [if_neg hr]] <;>
          rcases hsub : (executeTrade env (parseTradeCommand content).1).submitted with _ | o <;>
            simp [submitEvents, responsesOf]
      · rw [if_neg hp]
        simp [responsesOf]
    · intro hp
      simp only [processTradeCommands]
      rw [if_neg h, if_pos hp]
      by_cases hr : 0 < (executeTrade env (parseTradeCommand content).1).retId
      · rw [if_pos hr]
        refine ⟨strOf "FILLED", ?_⟩
        rcases hsub : (executeTrade env (parseTradeCommand content).1).submitted with _ | o <;>
          simp [submitEvents, responsesOf]
      · rw [if_neg hr]
        refine ⟨strOf "REJECTED", ?_⟩
        rcases hsub : (executeTrade env (parseTradeCommand content).1).submitted with _ | o <;>
          simp [submitEvents, responsesOf]
    · intro hp
      exact bridge_parse_failure_response env content h hp
  · intro env content
    constructor
    · intro hv
      simp only [processTradeCommandsComplete]
      rw [if_pos hv, responsesOf_append, responsesOf_append,
        executeTradeComplete_responses]
      simp [responsesOf]
    · intro hv
      simp only [processTradeCommandsComplete]
      rw [if_neg (by simp [hv])]
      exact ⟨by simp [responsesOf], by simp [submitsOf]⟩
  · intro env content h
    constructor
    · intro hv
      simp only [processTradeCommandsFixed]
      rw [if_neg h, if_neg (by simp [hv])]
      simp [responsesOf]
    · intro hv
      simp only [processTradeCommandsFixed]
      rw [if_neg h, if_pos hv, responsesOf_append, responsesOf_append,
        show responsesOf [ChanEvent.readContent content, ChanEvent.parseAttempt] = []
          from rfl,
        show responsesOf [ChanEvent.removeArtifact] = [] from rfl,
        List.nil_append, List.append_nil]
      exact executeTradeFixed_responses env _ _ _ _

/-- Witness for C2: the bridge cycle on the concrete valid command. -/
theorem C2_witness :
    (responsesOf (processTradeCommands envB (some validCmdJson)).events).length = 1 ∧
    ((parseTradeCommand validCmdJson).2 = true →
      ∃ st, responsesOf (processTradeCommands envB (some validCmdJson)).events =
        [((parseTradeCommand validCmdJson).1.command_id, st)]) ∧
    ((parseTradeCommand validCmdJson).2 = false →
      responsesOf (processTradeCommands envB (some validCmdJson)).events =
        [(strOf "unknown", strOf "REJECTED")] ∧
      submitsOf (processTradeCommands envB (some validCmdJson)).events = []) :=
  C2_response_discipline.1 envB validCmdJson (by decide)

/-- Counterexample to C2 as stated: the FIXED exporter reads the non-empty
malformed artifact `"x"` but writes no `TradeResponse` at all. -/
theorem C2_counterexample :
    strOf "x" ≠ [] ∧
    ChanEvent.readContent (strOf "x") ∈
      (processTradeCommandsFixed ⟨1, 0⟩ (some (strOf "x"))).events ∧
    responsesOf (processTradeCommandsFixed ⟨1, 0⟩ (some (strOf "x"))).events = [] := by
  decide

/-! ## Claim C8: order construction and recorded fill prices -/

/-- Claim C8 (amended): in the bridge study, once all validation gates
pass, a `BUY` is submitted as a market order with the current ask recorded
as the fill price and a `SELL` as a market order with the current bid
recorded; a `LIMIT` command keeps its requested price only in the order's
`Price1` field — the order type is forced to market before submission and
the recorded fill price is still the ask/bid, not the requested price.  In
the FIXED exporter, a `LIMIT` buy is submitted as a genuine limit order
carrying the requested price, but its responses record no fill price at
all. -/
theorem C8_order_construction :
    (∀ (env : BridgeEnv) (cmd : TradeCommandB),
      env.allowEntryWithWorkingOrders = true →
      env.sendOrdersToTradeService = true →
      (cmd.symbol = [] ∨ strEqNoCase env.chartSymbol cmd.symbol = true) →
      0 < cmd.quantity → cmd.quantity ≤ MAX_POSITION_SIZE →
      0 < env.bid → 0 < env.ask →
      ((cmd.action = strOf "BUY" →
         executeTrade env cmd = ⟨env.hostOrderResult, env.ask,
           some ⟨strOf "BUY", OrderTypeE.market,
             (if cmd.order_type = strOf "LIMIT" ∧ 0 < cmd.price then cmd.price else 0),
             cmd.quantity⟩⟩) ∧
       (cmd.action = strOf "SELL" →
         executeTrade env cmd = ⟨env.hostOrderResult, env.bid,
           some ⟨strOf "SELL", OrderTypeE.market,
             (if cmd.order_type = strOf "LIMIT" ∧ 0 < cmd.price then cmd.price else 0),
             cmd.quantity⟩⟩))) ∧
    (∀ (env : FixedEnv) (q : Int) (price : ℚ), 0 < q → 0 < price →
      executeTradeFixed env (strOf "BUY") q price (strOf "LIMIT") =
        [ChanEvent.submitOrder ⟨strOf "BUY", OrderTypeE.limit, price, q⟩,
         ChanEvent.writeResponse (minhOrderId env.nowUs)
           (if 0 < env.hostOrderResult then strOf "SUBMITTED" else strOf "FAILED")]) := by
  constructor
  · intro env cmd h1 h2 h3 h4 h5 h6 h7
    have g1 : ¬ env.allowEntryWithWorkingOrders = false := by simp [h1]
    have g2 : ¬ env.sendOrdersToTradeService = false := by simp [h2]
    have g3 : ¬ (cmd.symbol ≠ [] ∧ strEqNoCase env.chartSymbol cmd.symbol = false) := by
      rcases h3 with h3 | h3
      · intro hcon; exact hcon.1 h3
      · intro hcon; rw [h3] at hcon; exact absurd hcon.2 (by simp)
    have g4 : ¬ cmd.quantity ≤ 0 := by omega
    have g5 : ¬ MAX_POSITION_SIZE < cmd.quantity := by omega
    have g6 : ¬ (env.ask ≤ 0 ∨ env.bid ≤ 0) := by
      push_neg
      exact ⟨h7, h6⟩
    constructor
    · intro ha
      simp only [executeTrade, if_neg g1, if_neg g2, if_neg g3, if_neg g4, if_neg g5,
        if_neg g6, if_pos ha]
    · intro ha
      have hne : ¬ cmd.action = strOf "BUY" := by
        rw [ha]; decide
      simp only [executeTrade, if_neg g1, if_neg g2, if_neg g3, if_neg g4, if_neg g5,
        if_neg g6, if_neg hne, if_pos ha]
  · intro env q price hq hpr
    have g1 : ¬ q ≤ 0 := by omega
    have g2 : ¬ (price ≤ 0 ∧ strEqNoCase (strOf "LIMIT") (strOf "MARKET") = false) := by
      rintro ⟨hc, _⟩
      linarith
    have g3 : strEqNoCase (strOf "LIMIT") (strOf "LIMIT") = true := by decide
    have g4 : strEqNoCase (strOf "BUY") (strOf "BUY") = true := by decide
    simp only [executeTradeFixed, if_neg g1, if_neg g2, g3, if_pos (Or.inl g4), if_true]

/-- A bridge `MARKET BUY` command for two contracts. -/
def cmdMkt : TradeCommandB := ⟨strOf "c1", strOf "BUY", [], 2, 0, strOf "MARKET"⟩

/-- Witness for C8 at concrete inputs. -/
theorem C8_witness :
    executeTrade envB cmdMkt =
      ⟨5, 101, some ⟨strOf "BUY", OrderTypeE.market,
        (if cmdMkt.order_type = strOf "LIMIT" ∧ 0 < cmdMkt.price then cmdMkt.price else 0),
        2⟩⟩ ∧
    executeTradeFixed ⟨7, 3⟩ (strOf "BUY") 1 50 (strOf "LIMIT") =
      [ChanEvent.submitOrder ⟨strOf "BUY", OrderTypeE.limit, 50, 1⟩,
       ChanEvent.writeResponse (minhOrderId 3)
         (if 0 < (7 : Int) then strOf "SUBMITTED" else strOf "FAILED")] :=
  ⟨(C8_order_construction.1 envB cmdMkt rfl rfl (Or.inl rfl) (by decide) (by decide)
      (by decide) (by decide)).1 rfl,
   C8_order_construction.2 ⟨7, 3⟩ 1 50 (by decide) (by decide)⟩

/-- A bridge `LIMIT BUY` command requesting price 99. -/
def cmdLim : TradeCommandB := ⟨strOf "c1", strOf "BUY", [], 2, 99, strOf "LIMIT"⟩

/-- Counterexample to C8 as stated: the bridge submits the `LIMIT` command
as a *market* order (the requested price survives only in `Price1`) and
records the current ask 101 as the fill price instead of the requested
99. -/
theorem C8_counterexample :
    cmdLim.order_type = strOf "LIMIT" ∧
    cmdLim.price = 99 ∧
    executeTrade envB cmdLim =
      ⟨5, 101, some ⟨strOf "BUY", OrderTypeE.market, 99, 2⟩⟩ ∧
    (101 : ℚ) ≠ 99 := by
  refine ⟨rfl, rfl, ?_, by decide⟩
  decide

/-! ## Claim C10: totality of command-field extraction -/

/-- Claim C10 (amended): the extraction functions are total — every
exception path of `std::stoi`/`std::stof` is caught and replaced by 0 —
and `JSONParser` yields the empty string for a missing key or a missing
closing quote, and 0 for a missing key, a missing delimiter or an
unparseable number; the bridge parser treats an unparsed quantity as 0 and
then rejects the command with an `unknown`/`REJECTED` response and no
order submission.  (The bridge's quoted-field extraction, however, can
return a non-empty junk substring for a malformed string field; see the
counterexample.) -/
theorem C10_extraction_totality :
    (∀ json key, strFind json (mkStringKey key) = none →
       JSONParser.ExtractString json key = []) ∧
    (∀ json key pos, strFind json (mkStringKey key) = some pos →
       strFindFrom json (strOf "\"") (pos + (mkStringKey key).length) = none →
       JSONParser.ExtractString json key = []) ∧
    (∀ json key, strFind json (mkValueKey key) = none →
       JSONParser.ExtractInt json key = 0) ∧
    (∀ json key tok, JSONParser.ExtractToken json key = some tok →
       stoiOpt tok = none → JSONParser.ExtractInt json key = 0) ∧
    (∀ json, (parseTradeCommand json).2 = true → 0 < (parseTradeCommand json).1.quantity) ∧
    (∀ (env : BridgeEnv) (json : Str), json ≠ [] → (parseTradeCommand json).2 = false →
       responsesOf (processTradeCommands env (some json)).events =
         [(strOf "unknown", strOf "REJECTED")] ∧
       submitsOf (processTradeCommands env (some json)).events = []) := by
  refine ⟨?_, ?_, ?_, ?_, ?_, ?_⟩
  · intro json key h
    simp only [JSONParser.ExtractString, h]
  · intro json key pos h1 h2
    simp only [JSONParser.ExtractString, h1, h2]
  · intro json key h
    simp only [JSONParser.ExtractInt, JSONParser.ExtractToken, h]
  · intro json key tok h1 h2
    simp only [JSONParser.ExtractInt, h1, h2, Option.getD_none]
  · intro json h
    simp only [parseTradeCommand, decide_eq_true_eq] at h
    exact h.2.2
  · intro env json h hp
    exact bridge_parse_failure_response env json h hp

/-- Witness for C10: extracting a missing key, a missing delimiter and a
non-numeric quantity from concrete artifacts. -/
theorem C10_witness :
    JSONParser.ExtractString (strOf "x") (strOf "symbol") = [] ∧
    JSONParser.ExtractInt (strOf "x") (strOf "quantity") = 0 ∧
    JSONParser.ExtractInt (strOf "\"quantity\":abc,") (strOf "quantity") = 0 ∧
    (parseTradeCommand (strOf "\"command_id\":\"c\",\"action\":\"BUY\",\"quantity\":zz,")).2
      = false :=
  ⟨C10_extraction_totality.1 (strOf "x") (strOf "symbol") (by decide),
   C10_extraction_totality.2.2.1 (strOf "x") (strOf "quantity") (by decide),
   C10_extraction_totality.2.2.2.1 (strOf "\"quantity\":abc,") (strOf "quantity")
     (strOf "abc") (by decide) (by decide),
   by decide⟩

/-- Counterexample to C10 as stated: on the artifact
`"command_id":123,"action":"BUY"` — whose `command_id` is a malformed
(non-string) field — the bridge parser's string extraction grabs the quotes
of the *next* field and yields the junk value `action`, not the empty
string. -/
theorem C10_counterexample :
    (parseTradeCommand (strOf "\"command_id\":123,\"action\":\"BUY\"")).1.command_id =
      strOf "action" ∧
    (parseTradeCommand (strOf "\"command_id\":123,\"action\":\"BUY\"")).1.command_id ≠ [] := by
  decide

end MinhOS
